import Mathlib

/-!
Verification of the lucida-rs acquisition client (`src/api/src/lib.rs`).

The Rust code is shallowly embedded: each HTTP endpoint is abstracted as an
oracle (`Env`) indexed by the sequence number of the call, and the
orchestrator `LucidaClient::try_download_all_countries` is translated into a
pure Lean function that threads those indices, records the calls it issues,
the progress messages it emits, and its final outcome.  Wall-clock time is
modelled in abstract time units: each status poll consumes the duration the
oracle assigns to it and every `sleep(Duration::from_secs(1))` consumes one
unit.
-/

set_option maxRecDepth 10000

deriving instance DecidableEq for Except

namespace LucidaRs

/-- Whether the first character list is a leading segment of the second. -/
def leadsWith : List Char → List Char → Bool
  | [], _ => true
  | _ :: _, [] => false
  | p :: ps, c :: cs => p == c && leadsWith ps cs

/-- Whether the first character list occurs contiguously inside the second. -/
def occursIn (pat : List Char) : List Char → Bool
  | [] => leadsWith pat []
  | c :: cs => leadsWith pat (c :: cs) || occursIn pat cs

/-- Substring containment, modelling Rust `str::contains` with a string
pattern: the pattern occurs contiguously somewhere in the string. -/
def strContains (s pat : String) : Bool :=
  occursIn pat.data s.data

/-- `LucidaService` from `src/api/src/lib.rs` (lines 116-123). -/
inductive LucidaService where
  | Qobuz
  | Tidal
  | Soundcloud
  | Deezer
  | AmazonMusic
  | YandexMusic
deriving DecidableEq

namespace LucidaService

/-- `LucidaService::as_str` (lib.rs lines 126-135). -/
def as_str : LucidaService → String
  | .Qobuz => "qobuz"
  | .Tidal => "tidal"
  | .Soundcloud => "soundcloud"
  | .Deezer => "deezer"
  | .AmazonMusic => "amazon"
  | .YandexMusic => "yandex"

/-- `LucidaService::from_str` (lib.rs lines 137-147): exact match against the
canonical short names. -/
def from_str (s : String) : Option LucidaService :=
  match s with
  | "qobuz" => some .Qobuz
  | "tidal" => some .Tidal
  | "soundcloud" => some .Soundcloud
  | "deezer" => some .Deezer
  | "amazon" => some .AmazonMusic
  | "yandex" => some .YandexMusic
  | _ => none

/-- `LucidaService::from_url` (lib.rs lines 149-165): substring match of the
URL against the known domains, in the source's `if`/`else if` order. -/
def from_url (url : String) : Option LucidaService :=
  if strContains url "qobuz.com" then some .Qobuz
  else if strContains url "tidal.com" then some .Tidal
  else if strContains url "soundcloud.com" then some .Soundcloud
  else if strContains url "deezer.com" then some .Deezer
  else if strContains url "music.amazon.com" then some .AmazonMusic
  else if strContains url "music.yandex.ru" then some .YandexMusic
  else none

end LucidaService

/-- The domain table of `from_url` in its textual order, used to state the
"first matching domain wins" property as a first-match lookup. -/
def domainTable : List (String × LucidaService) :=
  [("qobuz.com", .Qobuz), ("tidal.com", .Tidal), ("soundcloud.com", .Soundcloud),
   ("deezer.com", .Deezer), ("music.amazon.com", .AmazonMusic),
   ("music.yandex.ru", .YandexMusic)]

/-- Specification-side URL resolution: the first entry of `domainTable` whose
domain occurs in the URL. -/
def resolveUrlSpec (url : String) : Option LucidaService :=
  (domainTable.find? (fun p => strContains url p.1)).map (fun p => p.2)

/-- `Country` (lib.rs lines 58-62). -/
structure Country where
  code : String
  label : String
deriving DecidableEq

/-- `CountriesResponse` (lib.rs lines 52-56).  The orchestrator iterates the
`countries` field and never inspects `success`. -/
structure CountriesResponse where
  success : Bool
  countries : List Country
deriving DecidableEq

/-- `StreamResponse` (lib.rs lines 31-37). -/
structure StreamResponse where
  success : Bool
  error : Option String
  handoff : Option String
  name : Option String
deriving DecidableEq

/-- `StatusResponse` (lib.rs lines 39-44). -/
structure StatusResponse where
  success : Bool
  status : String
  message : String
deriving DecidableEq

/-- The observable part of `DownloadResponse` (lib.rs lines 89-93): the byte
stream itself is opaque, the parsed headers are kept. -/
structure DownloadResult where
  filename : Option String
  content_type : Option String
deriving DecidableEq

/-- `LucidaError` (lib.rs lines 177-183).  `RequestFailed` is the image of
every `reqwest` transport/parse error under the `From` impl (lines 198-202). -/
inductive LucidaError where
  | UnknownService
  | NotAvailable
  | RequestFailed (msg : String)
  | ServerError (msg : String)
deriving DecidableEq

/-- Oracle for the remote endpoints used by `try_download_all_countries`.
`stream`, `status` are indexed by how many calls of that kind were issued
before; `statusDur` gives the wall-clock time units the indexed status call
takes; `.error` models a reqwest transport/parse failure. -/
structure Env where
  countries : Except String CountriesResponse
  stream : Nat → Except String StreamResponse
  status : Nat → Except String StatusResponse
  statusDur : Nat → Nat
  download : Except String DownloadResult

/-- One HTTP call issued by the orchestrator, with the country code for
stream requests and whether the call succeeded at the transport level. -/
inductive Call where
  | countriesCall (ok : Bool)
  | streamCall (country : String) (ok : Bool)
  | statusCall (ok : Bool)
  | downloadCall (ok : Bool)
deriving DecidableEq

/-- Outcome of a whole `try_download_all_countries` run.  `panicked` models
the Rust panic raised by `stream_response.handoff.unwrap()` when a successful
stream response carries no handoff id (lib.rs line 252). -/
inductive AcquireResult where
  | ok (d : DownloadResult)
  | err (e : LucidaError)
  | panicked
deriving DecidableEq

/-- Outcome of the inner 3-attempt loop for one country: either the whole
call returns now (`done`), or the attempts are exhausted and the outer loop
moves to the next country. -/
inductive LoopStep where
  | done (r : AcquireResult)
  | nextCountry
deriving DecidableEq

/-- Output of the status-polling phase: `result` is the terminal status
together with the elapsed time units at exit and whether the 60-unit timeout
fired, or a transport error; `events`/`calls` are the emissions and HTTP
calls this phase performed; `nextStatus` the next status-call index. -/
structure PollOut where
  result : Except String (String × Nat × Bool)
  events : List String
  calls : List Call
  nextStatus : Nat
deriving DecidableEq

/-- Output of the per-country attempt loop. -/
structure StepOut where
  step : LoopStep
  events : List String
  calls : List Call
  nextStream : Nat
  nextStatus : Nat
deriving DecidableEq

/-- Output of a whole run. -/
structure RunOut where
  result : AcquireResult
  events : List String
  calls : List Call
  nextStream : Nat
  nextStatus : Nat
deriving DecidableEq

/-- The literal emitted at lib.rs line 272. -/
def timeoutMsg : String := "Processing timeout, retrying..."

/-- The literal emitted at lib.rs line 282. -/
def downloadingMsg : String := "Downloading stream locally"

/-- The `while` condition of lib.rs line 260, negated: a status string is
terminal when it is `"completed"` or `"error"`. -/
def statusTerminal (s : String) : Bool :=
  s == "completed" || s == "error"

/-- The `while` loop of lib.rs lines 260-277.  `elapsed` is the time since
`processing_start` (taken just after the first snapshot), `lastMsg` the last
value of `status_message`, `status` the current value of `status`.  Each
iteration re-fetches the status (consuming `statusDur` time units), emits the
message if it changed, overrides the status with `"error"` and emits the
timeout message if more than 60 units have elapsed, and otherwise sleeps one
unit and repeats. -/
def pollLoop (env : Env) (elapsed sIdx : Nat) (lastMsg status : String) : PollOut :=
  if statusTerminal status then
    ⟨.ok (status, elapsed, false), [], [], sIdx⟩
  else
    match env.status sIdx with
    | .error e => ⟨.error e, [], [.statusCall false], sIdx + 1⟩
    | .ok r =>
      let ev := if r.message ≠ lastMsg then [r.message] else []
      let lm := if r.message ≠ lastMsg then r.message else lastMsg
      if h : 60 < elapsed + env.statusDur sIdx then
        ⟨.ok ("error", elapsed + env.statusDur sIdx, true), ev ++ [timeoutMsg],
          [.statusCall true], sIdx + 1⟩
      else
        let rest := pollLoop env (elapsed + env.statusDur sIdx + 1) (sIdx + 1) lm r.status
        ⟨rest.result, ev ++ rest.events, .statusCall true :: rest.calls, rest.nextStatus⟩
termination_by 61 - elapsed
decreasing_by simp_wf; omega

/-- Lines 254-277 of lib.rs: the initial status snapshot (whose message is
always emitted, line 257), then the polling loop started with
`processing_start` at zero elapsed time. -/
def runAttempt (env : Env) (sIdx : Nat) : PollOut :=
  match env.status sIdx with
  | .error e => ⟨.error e, [], [.statusCall false], sIdx + 1⟩
  | .ok r =>
    let p := pollLoop env 0 (sIdx + 1) r.message r.status
    ⟨p.result, r.message :: p.events, .statusCall true :: p.calls, p.nextStatus⟩

/-- The `for _ in 0..3` loop body of lib.rs lines 244-285, recursing on the
number of remaining attempts: issue a stream request (abort the whole call on
transport error), skip to the next attempt when it is rejected, panic when a
successful response has no handoff id, otherwise poll the job; a terminal
`"error"` (including the synthetic timeout one) goes to the next attempt,
anything else emits the downloading message and returns `fetch_download`. -/
def attemptsLoop (env : Env) (code : String) : Nat → Nat → Nat → StepOut
  | 0, stIdx, sIdx => ⟨.nextCountry, [], [], stIdx, sIdx⟩
  | n + 1, stIdx, sIdx =>
    match env.stream stIdx with
    | .error e =>
      ⟨.done (.err (.RequestFailed e)), [], [.streamCall code false], stIdx + 1, sIdx⟩
    | .ok resp =>
      if resp.success = false then
        let rest := attemptsLoop env code n (stIdx + 1) sIdx
        ⟨rest.step, rest.events, .streamCall code true :: rest.calls,
          rest.nextStream, rest.nextStatus⟩
      else
        match resp.handoff with
        | none => ⟨.done .panicked, [], [.streamCall code true], stIdx + 1, sIdx⟩
        | some _ =>
          let a := runAttempt env sIdx
          match a.result with
          | .error e =>
            ⟨.done (.err (.RequestFailed e)), a.events,
              .streamCall code true :: a.calls, stIdx + 1, a.nextStatus⟩
          | .ok (st, _, _) =>
            if st = "error" then
              let rest := attemptsLoop env code n (stIdx + 1) a.nextStatus
              ⟨rest.step, a.events ++ rest.events,
                .streamCall code true :: (a.calls ++ rest.calls),
                rest.nextStream, rest.nextStatus⟩
            else
              match env.download with
              | .error e =>
                ⟨.done (.err (.RequestFailed e)), a.events ++ [downloadingMsg],
                  .streamCall code true :: (a.calls ++ [.downloadCall false]),
                  stIdx + 1, a.nextStatus⟩
              | .ok d =>
                ⟨.done (.ok d), a.events ++ [downloadingMsg],
                  .streamCall code true :: (a.calls ++ [.downloadCall true]),
                  stIdx + 1, a.nextStatus⟩

/-- The outer `for country in countries.countries` loop of lib.rs lines
243-286: run three attempts per country in the server-provided order;
exhausting every country yields `Err(LucidaError::NotAvailable)`
(lib.rs line 287). -/
def countriesLoop (env : Env) : List Country → Nat → Nat → RunOut
  | [], stIdx, sIdx => ⟨.err .NotAvailable, [], [], stIdx, sIdx⟩
  | c :: cs, stIdx, sIdx =>
    let s := attemptsLoop env c.code 3 stIdx sIdx
    match s.step with
    | .done r => ⟨r, s.events, s.calls, s.nextStream, s.nextStatus⟩
    | .nextCountry =>
      let rest := countriesLoop env cs s.nextStream s.nextStatus
      ⟨rest.result, s.events ++ rest.events, s.calls ++ rest.calls,
        rest.nextStream, rest.nextStatus⟩

/-- `LucidaClient::try_download_all_countries` (lib.rs lines 233-288):
resolve the service from the URL with `from_url` only (line 239), fetch the
country list (a transport failure becomes `RequestFailed` via `?`), then run
the country loop. -/
def try_download_all_countries (env : Env) (url : String) : RunOut :=
  match LucidaService.from_url url with
  | none => ⟨.err .UnknownService, [], [], 0, 0⟩
  | some _ =>
    match env.countries with
    | .error e => ⟨.err (.RequestFailed e), [], [.countriesCall false], 0, 0⟩
    | .ok cr =>
      let r := countriesLoop env cr.countries 0 0
      ⟨r.result, r.events, .countriesCall true :: r.calls, r.nextStream, r.nextStatus⟩

/-- Drops the leading characters satisfying the test. -/
def dropLeading (p : Char → Bool) : List Char → List Char
  | [] => []
  | c :: cs => if p c then dropLeading p cs else c :: cs

/-- Trims leading and trailing spaces and tabs. -/
def trimChars (l : List Char) : List Char :=
  (dropLeading (fun c => c == ' ' || c == '\t')
    ((dropLeading (fun c => c == ' ' || c == '\t') l).reverse)).reverse

/-- Splits a character list on a separator character. -/
def splitOnChar (sep : Char) : List Char → List (List Char)
  | [] => [[]]
  | c :: cs =>
    match splitOnChar sep cs with
    | [] => [[]]
    | h :: t => if c == sep then [] :: h :: t else (c :: h) :: t

/-- Strips one pair of surrounding double quotes from a parameter value. -/
def stripQuotes : List Char → List Char
  | '"' :: c :: cs =>
    if (c :: cs).getLast? = some '"' then (c :: cs).dropLast else '"' :: c :: cs
  | l => l

/-- Extracts the value of one `filename=`-shaped parameter piece, after
trimming surrounding whitespace. -/
def filenameParam (part : List Char) : Option (List Char) :=
  let p := trimChars part
  if leadsWith "filename=".data p then some (stripQuotes (p.drop 9)) else none

/-- Modelled from the spec: the RFC 2183-style content-disposition parameter
parsing that lib.rs line 359 delegates to the external `mailparse` crate
(`parse_content_disposition`, not part of this repository) — split the header
value on `;`, find the `filename` parameter, and unquote its value. -/
def parseDispositionFilename (v : String) : Option String :=
  ((splitOnChar ';' v.data).findSome? filenameParam).map (fun l => String.mk l)

/-- The header-parsing part of `LucidaClient::fetch_download` (lib.rs lines
350-368): the content type is taken verbatim when present, the filename is
parsed out of the content-disposition header when present, and the absence of
either header is not an error. -/
def fetch_download (content_type disposition : Option String) : DownloadResult :=
  { filename :=
      match disposition with
      | some v => parseDispositionFilename v
      | none => none,
    content_type := content_type }

/-- The country codes of the stream requests in a call trace, in order. -/
def streamCallCodes : List Call → List String
  | [] => []
  | .streamCall c _ :: rest => c :: streamCallCodes rest
  | _ :: rest => streamCallCodes rest

/-- Three copies of every country code, in the list's order: the stream
requests an exhausting run is expected to issue. -/
def threeEach : List Country → List String
  | [] => []
  | c :: cs => c.code :: c.code :: c.code :: threeEach cs

/-- Whether a recorded call succeeded at the transport level. -/
def callOk : Call → Bool
  | .countriesCall b => b
  | .streamCall _ b => b
  | .statusCall b => b
  | .downloadCall b => b

/-- Whether a run outcome is the transport error `RequestFailed`. -/
def isTransportErr : AcquireResult → Bool
  | .err (.RequestFailed _) => true
  | _ => false

/-- The message of the `k`-th status response of the oracle (dummy empty
string on transport error). -/
def statusMsg (env : Env) (k : Nat) : String :=
  match env.status k with
  | .ok s => s.message
  | .error _ => ""

/-- The messages of status calls `idx, idx+1, ..., idx+n-1`. -/
def observedMsgs (env : Env) (idx : Nat) : Nat → List String
  | 0 => []
  | n + 1 => statusMsg env idx :: observedMsgs env (idx + 1) n

/-- Every call in the trace succeeded at the transport level. -/
def allOk (calls : List Call) : Prop :=
  ∀ x ∈ calls, callOk x = true

/-- A trace that ends in its sole transport-failed call: every call before
the last succeeded and the last one failed. -/
def AbortShape (calls : List Call) : Prop :=
  ∃ pre c, calls = pre ++ [c] ∧ allOk pre ∧ callOk c = false

/-- Specification-side emission discipline: given the previously emitted
message, keep each observed message that differs from the previously kept
one and drop the rest. -/
def collapse (last : String) : List String → List String
  | [] => []
  | m :: ms => if m ≠ last then m :: collapse m ms else collapse last ms

/-- A concrete oracle whose endpoints always answer the same way: one
country, rejected stream requests, a constant status snapshot taking `d`
time units, and an empty download. -/
def envConst (st msg : String) (d : Nat) : Env :=
  { countries := .ok ⟨true, [⟨"US", "United States"⟩]⟩,
    stream := fun _ => .ok ⟨false, some "not available", none, none⟩,
    status := fun _ => .ok ⟨true, st, msg⟩,
    statusDur := fun _ => d,
    download := .ok ⟨some "track.flac", some "audio/flac"⟩ }

/-- A concrete oracle with two countries whose first three stream requests
(the first country's attempts) are rejected and whose fourth (the second
country's first attempt) is accepted; the job completes immediately. -/
def envSecondCountry : Env :=
  { countries := .ok ⟨true, [⟨"US", "United States"⟩, ⟨"GB", "United Kingdom"⟩]⟩,
    stream := fun k =>
      if k < 3 then .ok ⟨false, some "not available", none, none⟩
      else .ok ⟨true, none, some "job1", none⟩,
    status := fun _ => .ok ⟨true, "completed", "Done"⟩,
    statusDur := fun _ => 0,
    download := .ok ⟨some "track.flac", some "audio/flac"⟩ }

/-- A concrete oracle whose stream endpoint reports success but carries no
handoff id. -/
def envNoHandoff : Env :=
  { countries := .ok ⟨true, [⟨"US", "United States"⟩]⟩,
    stream := fun _ => .ok ⟨true, none, none, none⟩,
    status := fun _ => .ok ⟨true, "completed", "Done"⟩,
    statusDur := fun _ => 0,
    download := .ok ⟨none, none⟩ }

/-- A concrete oracle whose first status snapshot is `"processing"` and whose
second reports `"completed"`, but only after a 61-unit-long poll. -/
def envLateComplete : Env :=
  { countries := .ok ⟨true, [⟨"US", "United States"⟩]⟩,
    stream := fun _ => .ok ⟨true, none, some "job1", none⟩,
    status := fun k =>
      if k = 0 then .ok ⟨true, "processing", "Working"⟩
      else .ok ⟨true, "completed", "Working"⟩,
    statusDur := fun _ => 61,
    download := .ok ⟨some "track.flac", some "audio/flac"⟩ }

end LucidaRs

namespace LucidaRs

theorem streamCallCodes_append (l1 l2 : List Call) :
    streamCallCodes (l1 ++ l2) = streamCallCodes l1 ++ streamCallCodes l2 := by
  induction l1 with
  | nil => rfl
  | cons c rest ih => cases c <;> simp [streamCallCodes, ih]

theorem pollLoop_terminal (env : Env) (e idx : Nat) (lm st : String)
    (h : statusTerminal st = true) :
    pollLoop env e idx lm st = ⟨.ok (st, e, false), [], [], idx⟩ := by
  rw [pollLoop]; simp [h]

theorem pollLoop_statusErr (env : Env) (e idx : Nat) (lm st msg : String)
    (hs : statusTerminal st = false) (h : env.status idx = .error msg) :
    pollLoop env e idx lm st = ⟨.error msg, [], [.statusCall false], idx + 1⟩ := by
  rw [pollLoop]; simp [hs, h]

theorem pollLoop_timeout (env : Env) (e idx : Nat) (lm st : String) (r : StatusResponse)
    (hs : statusTerminal st = false) (h : env.status idx = .ok r)
    (ht : 60 < e + env.statusDur idx) :
    pollLoop env e idx lm st =
      ⟨.ok ("error", e + env.statusDur idx, true),
        (if r.message ≠ lm then [r.message] else []) ++ [timeoutMsg],
        [.statusCall true], idx + 1⟩ := by
  rw [pollLoop]; simp [hs, h, ht]

theorem pollLoop_step (env : Env) (e idx : Nat) (lm st : String) (r : StatusResponse)
    (hs : statusTerminal st = false) (h : env.status idx = .ok r)
    (ht : ¬ 60 < e + env.statusDur idx) :
    pollLoop env e idx lm st =
      ⟨(pollLoop env (e + env.statusDur idx + 1) (idx + 1)
          (if r.message ≠ lm then r.message else lm) r.status).result,
        (if r.message ≠ lm then [r.message] else []) ++
          (pollLoop env (e + env.statusDur idx + 1) (idx + 1)
            (if r.message ≠ lm then r.message else lm) r.status).events,
        .statusCall true ::
          (pollLoop env (e + env.statusDur idx + 1) (idx + 1)
            (if r.message ≠ lm then r.message else lm) r.status).calls,
        (pollLoop env (e + env.statusDur idx + 1) (idx + 1)
          (if r.message ≠ lm then r.message else lm) r.status).nextStatus⟩ := by
  rw [pollLoop]; simp [hs, h, ht]

end LucidaRs

namespace LucidaRs

theorem statusTerminal_processing : statusTerminal "processing" = false := by decide

theorem pollLoop_processing (env : Env)
    (hok : ∀ k, ∃ s, env.status k = .ok s ∧ s.status = "processing" ∧ s.message ≠ timeoutMsg)
    (hdur : ∀ k, env.statusDur k = 0) :
    ∀ (k : Nat), ∀ (e idx : Nat) (lm : String), e + k = 61 →
      ∃ evs, pollLoop env e idx lm "processing" =
        ⟨.ok ("error", 61, true), evs ++ [timeoutMsg],
          List.replicate (k + 1) (.statusCall true), idx + (k + 1)⟩ ∧
        timeoutMsg ∉ evs := by
  intro k
  induction k with
  | zero =>
    intro e idx lm he
    obtain ⟨s, hs, hst, hm⟩ := hok idx
    rw [pollLoop_timeout env e idx lm "processing" s statusTerminal_processing hs
      (by rw [hdur]; omega)]
    refine ⟨if s.message ≠ lm then [s.message] else [], ?_, ?_⟩
    · obtain rfl : e = 61 := by omega
      simp [hdur]
    · split
      · simpa using fun hcon => hm hcon.symm
      · simp
  | succ n ih =>
    intro e idx lm he
    obtain ⟨s, hs, hst, hm⟩ := hok idx
    rw [pollLoop_step env e idx lm "processing" s statusTerminal_processing hs
      (by rw [hdur]; omega)]
    obtain ⟨evs, hrec, hmem⟩ :=
      ih (e + env.statusDur idx + 1) (idx + 1) (if s.message ≠ lm then s.message else lm)
        (by rw [hdur]; omega)
    rw [hst, hrec]
    refine ⟨(if s.message ≠ lm then [s.message] else []) ++ evs, ?_, ?_⟩
    · simp only [PollOut.mk.injEq, List.replicate_succ, List.append_assoc,
        List.cons.injEq, true_and, and_true]
      omega
    · intro hc
      rcases List.mem_append.mp hc with hc | hc
      · revert hc; split
        · simpa using fun hcon => hm hcon.symm
        · simp
      · exact hmem hc

end LucidaRs

namespace LucidaRs

theorem runAttempt_statusErr (env : Env) (sIdx : Nat) (msg : String)
    (h : env.status sIdx = .error msg) :
    runAttempt env sIdx = ⟨.error msg, [], [.statusCall false], sIdx + 1⟩ := by
  simp [runAttempt, h]

theorem runAttempt_ok (env : Env) (sIdx : Nat) (r : StatusResponse)
    (h : env.status sIdx = .ok r) :
    runAttempt env sIdx =
      ⟨(pollLoop env 0 (sIdx + 1) r.message r.status).result,
        r.message :: (pollLoop env 0 (sIdx + 1) r.message r.status).events,
        .statusCall true :: (pollLoop env 0 (sIdx + 1) r.message r.status).calls,
        (pollLoop env 0 (sIdx + 1) r.message r.status).nextStatus⟩ := by
  simp [runAttempt, h]

/-- C2: with a status source that always reports the non-terminal status
`"processing"`, the polling phase of an attempt always terminates, reports the
timeout-flavored terminal status `"error"` with the timeout flag set, and
emits the distinguished timeout message exactly once.  First part:
instantaneous polls — the loop stops with exactly 61 elapsed time units
(within 60±1, one fixed 1-unit sleep between consecutive polls) after the
initial snapshot plus 62 in-loop polls.  Second part: the budget is measured
in elapsed time from the first snapshot, not in loop iterations — a single
poll that takes 61 or more time units already trips the timeout at the very
first loop iteration, with more than 60 units elapsed at exit. -/
theorem claim_C2 :
    (∀ (env : Env) (idx : Nat),
      (∀ k, ∃ s, env.status k = .ok s ∧ s.status = "processing" ∧ s.message ≠ timeoutMsg) →
      (∀ k, env.statusDur k = 0) →
      ∃ evs, runAttempt env idx =
        ⟨.ok ("error", 61, true), evs ++ [timeoutMsg],
          List.replicate 63 (.statusCall true), idx + 63⟩ ∧
        (evs ++ [timeoutMsg]).count timeoutMsg = 1)
    ∧
    (∀ (env : Env) (idx : Nat),
      (∀ k, ∃ s, env.status k = .ok s ∧ s.status = "processing" ∧ s.message ≠ timeoutMsg) →
      61 ≤ env.statusDur (idx + 1) →
      ∃ evs d, runAttempt env idx =
        ⟨.ok ("error", d, true), evs ++ [timeoutMsg],
          List.replicate 2 (.statusCall true), idx + 2⟩ ∧ 60 < d ∧
        (evs ++ [timeoutMsg]).count timeoutMsg = 1) := by
  constructor
  · intro env idx hok hdur
    obtain ⟨s0, hs0, hst0, hm0⟩ := hok idx
    obtain ⟨evs, hloop, hmem⟩ := pollLoop_processing env hok hdur 61 0 (idx + 1) s0.message rfl
    rw [runAttempt_ok env idx s0 hs0, hst0, hloop]
    refine ⟨s0.message :: evs, ?_, ?_⟩
    · simp only [PollOut.mk.injEq, List.cons_append, List.replicate_succ, List.cons.injEq,
        true_and, and_true]
    · simp [List.count_cons, List.count_append, List.count_eq_zero.mpr hmem,
        hm0, Ne.symm hm0]
  · intro env idx hok hdur
    obtain ⟨s0, hs0, hst0, hm0⟩ := hok idx
    obtain ⟨s1, hs1, hst1, hm1⟩ := hok (idx + 1)
    have ht : 60 < 0 + env.statusDur (idx + 1) := by omega
    rw [runAttempt_ok env idx s0 hs0, hst0,
      pollLoop_timeout env 0 (idx + 1) s0.message "processing" s1
        statusTerminal_processing hs1 ht]
    refine ⟨s0.message :: (if s1.message ≠ s0.message then [s1.message] else []),
      0 + env.statusDur (idx + 1), ?_, by omega, ?_⟩
    · simp only [PollOut.mk.injEq, List.cons_append, List.replicate_succ,
        List.replicate_zero, List.cons.injEq, true_and, and_true, List.append_assoc]
    · by_cases hms : s1.message = s0.message
      · simp [hms, List.count_cons, List.count_append, hm0, Ne.symm hm0]
      · simp [hms, List.count_cons, List.count_append, hm0, Ne.symm hm0, hm1, Ne.symm hm1]

end LucidaRs

namespace LucidaRs

/-- Witness for C2, at a constant-`"processing"` oracle with instantaneous
polls (first part) and with a 61-unit poll (second part). -/
theorem claim_C2_witness :
    (∃ evs, runAttempt (envConst "processing" "Converting" 0) 0 =
        ⟨.ok ("error", 61, true), evs ++ [timeoutMsg],
          List.replicate 63 (.statusCall true), 0 + 63⟩ ∧
        (evs ++ [timeoutMsg]).count timeoutMsg = 1)
    ∧
    (∃ evs d, runAttempt (envConst "processing" "Converting" 61) 0 =
        ⟨.ok ("error", d, true), evs ++ [timeoutMsg],
          List.replicate 2 (.statusCall true), 0 + 2⟩ ∧ 60 < d ∧
        (evs ++ [timeoutMsg]).count timeoutMsg = 1) :=
  ⟨claim_C2.1 (envConst "processing" "Converting" 0) 0
      (fun _ => ⟨_, rfl, rfl, by decide⟩) (fun _ => rfl),
   claim_C2.2 (envConst "processing" "Converting" 61) 0
      (fun _ => ⟨_, rfl, rfl, by decide⟩) (by decide)⟩

theorem observedMsgs_succ (env : Env) (idx n : Nat) :
    observedMsgs env idx (n + 1) = statusMsg env idx :: observedMsgs env (idx + 1) n :=
  rfl

theorem collapse_cons (last m : String) (ms : List String) :
    collapse last (m :: ms) = (if m ≠ last then [m] else []) ++ collapse m ms := by
  by_cases h : m = last
  · subst h; simp [collapse]
  · simp [collapse, h]

theorem collapse_lastAlign (lm m : String) (x : List String) :
    collapse (if m ≠ lm then m else lm) x = collapse m x := by
  by_cases h : m = lm
  · subst h; simp
  · simp [h]

theorem destutterTail_eq (a : String) (l : List String) :
    List.destutter' (fun x y : String => x ≠ y) a l = a :: collapse a l := by
  induction l generalizing a with
  | nil => simp [List.destutter', collapse]
  | cons h t ih =>
    by_cases hc : a = h
    · subst hc
      simp [List.destutter', collapse, ih]
    · simp [List.destutter', collapse, hc, Ne.symm hc, ih]

theorem destutter_eq (a : String) (l : List String) :
    List.destutter (fun x y : String => x ≠ y) (a :: l) = a :: collapse a l := by
  rw [List.destutter, destutterTail_eq]

theorem pollLoop_events (env : Env) (hok : ∀ k, ∃ s, env.status k = .ok s) :
    ∀ (e idx : Nat) (lm st : String),
      ∃ stf ef t n,
        pollLoop env e idx lm st =
          ⟨.ok (stf, ef, t),
            collapse lm (observedMsgs env idx n) ++ (if t then [timeoutMsg] else []),
            List.replicate n (.statusCall true), idx + n⟩ := by
  suffices h : ∀ m, ∀ (e idx : Nat) (lm st : String), 61 - e ≤ m →
      ∃ stf ef t n,
        pollLoop env e idx lm st =
          ⟨.ok (stf, ef, t),
            collapse lm (observedMsgs env idx n) ++ (if t then [timeoutMsg] else []),
            List.replicate n (.statusCall true), idx + n⟩ by
    exact fun e idx lm st => h (61 - e) e idx lm st le_rfl
  intro m
  induction m with
  | zero =>
    intro e idx lm st hm
    by_cases hterm : statusTerminal st = true
    · refine ⟨st, e, false, 0, ?_⟩
      rw [pollLoop_terminal env e idx lm st hterm]
      simp [observedMsgs, collapse]
    · obtain ⟨s, hs⟩ := hok idx
      have ht : 60 < e + env.statusDur idx := by omega
      refine ⟨"error", e + env.statusDur idx, true, 1, ?_⟩
      rw [pollLoop_timeout env e idx lm st s (by simpa using hterm) hs ht]
      have hobs : observedMsgs env idx 1 = [s.message] := by
        show [statusMsg env idx] = [s.message]
        simp [statusMsg, hs]
      rw [hobs, collapse_cons]
      simp [collapse]
  | succ m ih =>
    intro e idx lm st hm
    by_cases hterm : statusTerminal st = true
    · refine ⟨st, e, false, 0, ?_⟩
      rw [pollLoop_terminal env e idx lm st hterm]
      simp [observedMsgs, collapse]
    · obtain ⟨s, hs⟩ := hok idx
      by_cases ht : 60 < e + env.statusDur idx
      · refine ⟨"error", e + env.statusDur idx, true, 1, ?_⟩
        rw [pollLoop_timeout env e idx lm st s (by simpa using hterm) hs ht]
        have hobs : observedMsgs env idx 1 = [s.message] := by
          show [statusMsg env idx] = [s.message]
          simp [statusMsg, hs]
        rw [hobs, collapse_cons]
        simp [collapse]
      · obtain ⟨stf, ef, t, n, hrec⟩ :=
          ih (e + env.statusDur idx + 1) (idx + 1)
            (if s.message ≠ lm then s.message else lm) s.status (by omega)
        refine ⟨stf, ef, t, n + 1, ?_⟩
        rw [pollLoop_step env e idx lm st s (by simpa using hterm) hs ht, hrec,
          observedMsgs_succ, collapse_cons]
        have hsm : statusMsg env idx = s.message := by simp [statusMsg, hs]
        rw [hsm, collapse_lastAlign]
        simp only [PollOut.mk.injEq, List.replicate_succ, List.cons.injEq, true_and,
          and_true, List.append_assoc]
        omega

end LucidaRs

namespace LucidaRs

/-- C3: over one whole polling phase (the initial snapshot plus every in-loop
poll), the emitted progress messages are exactly
`List.destutter (· ≠ ·)` of the observed message sequence — one emission per
run of consecutive identical messages, in order of first observation, the
first snapshot's message always heading the list — followed by the
distinguished timeout message exactly when the phase timed out (flag `t`).
`n + 1` is the number of status snapshots the phase consumed. -/
theorem claim_C3 (env : Env) (idx : Nat)
    (hok : ∀ k, ∃ s, env.status k = .ok s) :
    ∃ stf ef t n,
      runAttempt env idx =
        ⟨.ok (stf, ef, t),
          List.destutter (fun x y => x ≠ y) (observedMsgs env idx (n + 1)) ++
            (if t then [timeoutMsg] else []),
          List.replicate (n + 1) (.statusCall true), idx + (n + 1)⟩ := by
  obtain ⟨s0, hs0⟩ := hok idx
  obtain ⟨stf, ef, t, n, hp⟩ := pollLoop_events env hok 0 (idx + 1) s0.message s0.status
  refine ⟨stf, ef, t, n, ?_⟩
  have hsm : statusMsg env idx = s0.message := by simp [statusMsg, hs0]
  rw [runAttempt_ok env idx s0 hs0, hp, observedMsgs_succ, hsm, destutter_eq]
  simp only [PollOut.mk.injEq, List.cons_append, List.replicate_succ, List.cons.injEq,
    true_and, and_true, List.append_assoc]
  omega

/-- Witness for C3 at a constant-status oracle whose first status is already
terminal. -/
theorem claim_C3_witness :
    ∃ stf ef t n,
      runAttempt (envConst "completed" "Done" 0) 5 =
        ⟨.ok (stf, ef, t),
          List.destutter (fun x y => x ≠ y)
              (observedMsgs (envConst "completed" "Done" 0) 5 (n + 1)) ++
            (if t then [timeoutMsg] else []),
          List.replicate (n + 1) (.statusCall true), 5 + (n + 1)⟩ :=
  claim_C3 (envConst "completed" "Done" 0) 5 (fun _ => ⟨_, rfl⟩)

end LucidaRs

namespace LucidaRs

theorem attemptsLoop_zero (env : Env) (code : String) (stIdx sIdx : Nat) :
    attemptsLoop env code 0 stIdx sIdx = ⟨.nextCountry, [], [], stIdx, sIdx⟩ :=
  rfl

theorem attemptsLoop_streamErr (env : Env) (code : String) (n stIdx sIdx : Nat) (e : String)
    (h : env.stream stIdx = .error e) :
    attemptsLoop env code (n + 1) stIdx sIdx =
      ⟨.done (.err (.RequestFailed e)), [], [.streamCall code false], stIdx + 1, sIdx⟩ := by
  simp [attemptsLoop, h]

theorem attemptsLoop_rejected (env : Env) (code : String) (n stIdx sIdx : Nat)
    (r : StreamResponse) (h : env.stream stIdx = .ok r) (hr : r.success = false) :
    attemptsLoop env code (n + 1) stIdx sIdx =
      ⟨(attemptsLoop env code n (stIdx + 1) sIdx).step,
        (attemptsLoop env code n (stIdx + 1) sIdx).events,
        .streamCall code true :: (attemptsLoop env code n (stIdx + 1) sIdx).calls,
        (attemptsLoop env code n (stIdx + 1) sIdx).nextStream,
        (attemptsLoop env code n (stIdx + 1) sIdx).nextStatus⟩ := by
  simp [attemptsLoop, h, hr]

theorem attemptsLoop_noHandoff (env : Env) (code : String) (n stIdx sIdx : Nat)
    (r : StreamResponse) (h : env.stream stIdx = .ok r) (hr : r.success = true)
    (hh : r.handoff = none) :
    attemptsLoop env code (n + 1) stIdx sIdx =
      ⟨.done .panicked, [], [.streamCall code true], stIdx + 1, sIdx⟩ := by
  simp [attemptsLoop, h, hr, hh]

theorem attemptsLoop_attemptErr (env : Env) (code : String) (n stIdx sIdx : Nat)
    (r : StreamResponse) (hid e : String) (h : env.stream stIdx = .ok r)
    (hr : r.success = true) (hh : r.handoff = some hid)
    (ha : (runAttempt env sIdx).result = .error e) :
    attemptsLoop env code (n + 1) stIdx sIdx =
      ⟨.done (.err (.RequestFailed e)), (runAttempt env sIdx).events,
        .streamCall code true :: (runAttempt env sIdx).calls, stIdx + 1,
        (runAttempt env sIdx).nextStatus⟩ := by
  simp [attemptsLoop, h, hr, hh, ha]

theorem attemptsLoop_statusError (env : Env) (code : String) (n stIdx sIdx : Nat)
    (r : StreamResponse) (hid : String) (el : Nat) (tf : Bool)
    (h : env.stream stIdx = .ok r) (hr : r.success = true) (hh : r.handoff = some hid)
    (ha : (runAttempt env sIdx).result = .ok ("error", el, tf)) :
    attemptsLoop env code (n + 1) stIdx sIdx =
      ⟨(attemptsLoop env code n (stIdx + 1) (runAttempt env sIdx).nextStatus).step,
        (runAttempt env sIdx).events ++
          (attemptsLoop env code n (stIdx + 1) (runAttempt env sIdx).nextStatus).events,
        .streamCall code true ::
          ((runAttempt env sIdx).calls ++
            (attemptsLoop env code n (stIdx + 1) (runAttempt env sIdx).nextStatus).calls),
        (attemptsLoop env code n (stIdx + 1) (runAttempt env sIdx).nextStatus).nextStream,
        (attemptsLoop env code n (stIdx + 1) (runAttempt env sIdx).nextStatus).nextStatus⟩ := by
  simp [attemptsLoop, h, hr, hh, ha]

theorem attemptsLoop_downloadErr (env : Env) (code : String) (n stIdx sIdx : Nat)
    (r : StreamResponse) (hid st : String) (el : Nat) (tf : Bool) (e : String)
    (h : env.stream stIdx = .ok r) (hr : r.success = true) (hh : r.handoff = some hid)
    (ha : (runAttempt env sIdx).result = .ok (st, el, tf)) (hst : ¬ st = "error")
    (hd : env.download = .error e) :
    attemptsLoop env code (n + 1) stIdx sIdx =
      ⟨.done (.err (.RequestFailed e)), (runAttempt env sIdx).events ++ [downloadingMsg],
        .streamCall code true :: ((runAttempt env sIdx).calls ++ [.downloadCall false]),
        stIdx + 1, (runAttempt env sIdx).nextStatus⟩ := by
  simp [attemptsLoop, h, hr, hh, ha, hst, hd]

theorem attemptsLoop_download (env : Env) (code : String) (n stIdx sIdx : Nat)
    (r : StreamResponse) (hid st : String) (el : Nat) (tf : Bool) (d : DownloadResult)
    (h : env.stream stIdx = .ok r) (hr : r.success = true) (hh : r.handoff = some hid)
    (ha : (runAttempt env sIdx).result = .ok (st, el, tf)) (hst : ¬ st = "error")
    (hd : env.download = .ok d) :
    attemptsLoop env code (n + 1) stIdx sIdx =
      ⟨.done (.ok d), (runAttempt env sIdx).events ++ [downloadingMsg],
        .streamCall code true :: ((runAttempt env sIdx).calls ++ [.downloadCall true]),
        stIdx + 1, (runAttempt env sIdx).nextStatus⟩ := by
  simp [attemptsLoop, h, hr, hh, ha, hst, hd]

theorem countriesLoop_nil (env : Env) (stIdx sIdx : Nat) :
    countriesLoop env [] stIdx sIdx = ⟨.err .NotAvailable, [], [], stIdx, sIdx⟩ :=
  rfl

theorem countriesLoop_done (env : Env) (c : Country) (cs : List Country)
    (stIdx sIdx : Nat) (r : AcquireResult)
    (h : (attemptsLoop env c.code 3 stIdx sIdx).step = .done r) :
    countriesLoop env (c :: cs) stIdx sIdx =
      ⟨r, (attemptsLoop env c.code 3 stIdx sIdx).events,
        (attemptsLoop env c.code 3 stIdx sIdx).calls,
        (attemptsLoop env c.code 3 stIdx sIdx).nextStream,
        (attemptsLoop env c.code 3 stIdx sIdx).nextStatus⟩ := by
  simp [countriesLoop, h]

theorem countriesLoop_next (env : Env) (c : Country) (cs : List Country)
    (stIdx sIdx : Nat)
    (h : (attemptsLoop env c.code 3 stIdx sIdx).step = .nextCountry) :
    countriesLoop env (c :: cs) stIdx sIdx =
      ⟨(countriesLoop env cs (attemptsLoop env c.code 3 stIdx sIdx).nextStream
          (attemptsLoop env c.code 3 stIdx sIdx).nextStatus).result,
        (attemptsLoop env c.code 3 stIdx sIdx).events ++
          (countriesLoop env cs (attemptsLoop env c.code 3 stIdx sIdx).nextStream
            (attemptsLoop env c.code 3 stIdx sIdx).nextStatus).events,
        (attemptsLoop env c.code 3 stIdx sIdx).calls ++
          (countriesLoop env cs (attemptsLoop env c.code 3 stIdx sIdx).nextStream
            (attemptsLoop env c.code 3 stIdx sIdx).nextStatus).calls,
        (countriesLoop env cs (attemptsLoop env c.code 3 stIdx sIdx).nextStream
          (attemptsLoop env c.code 3 stIdx sIdx).nextStatus).nextStream,
        (countriesLoop env cs (attemptsLoop env c.code 3 stIdx sIdx).nextStream
          (attemptsLoop env c.code 3 stIdx sIdx).nextStatus).nextStatus⟩ := by
  simp [countriesLoop, h]

theorem tdac_unknownService (env : Env) (url : String)
    (h : LucidaService.from_url url = none) :
    try_download_all_countries env url = ⟨.err .UnknownService, [], [], 0, 0⟩ := by
  simp [try_download_all_countries, h]

theorem tdac_countriesErr (env : Env) (url : String) (svc : LucidaService) (e : String)
    (hu : LucidaService.from_url url = some svc) (h : env.countries = .error e) :
    try_download_all_countries env url =
      ⟨.err (.RequestFailed e), [], [.countriesCall false], 0, 0⟩ := by
  simp [try_download_all_countries, hu, h]

theorem tdac_countriesOk (env : Env) (url : String) (svc : LucidaService)
    (cr : CountriesResponse)
    (hu : LucidaService.from_url url = some svc) (h : env.countries = .ok cr) :
    try_download_all_countries env url =
      ⟨(countriesLoop env cr.countries 0 0).result,
        (countriesLoop env cr.countries 0 0).events,
        .countriesCall true :: (countriesLoop env cr.countries 0 0).calls,
        (countriesLoop env cr.countries 0 0).nextStream,
        (countriesLoop env cr.countries 0 0).nextStatus⟩ := by
  simp [try_download_all_countries, hu, h]

end LucidaRs

namespace LucidaRs

theorem statusTerminal_error : statusTerminal "error" = true := by decide

theorem runAttempt_immediateError (env : Env) (sIdx : Nat) (s : StatusResponse)
    (hs : env.status sIdx = .ok s) (hse : s.status = "error") :
    runAttempt env sIdx =
      ⟨.ok ("error", 0, false), [s.message], [.statusCall true], sIdx + 1⟩ := by
  rw [runAttempt_ok env sIdx s hs, hse,
    pollLoop_terminal env 0 (sIdx + 1) s.message "error" statusTerminal_error]

theorem attemptsLoop_exhaust (env : Env) (code : String)
    (hstream : ∀ k, ∃ r, env.stream k = .ok r ∧ (r.success = true → r.handoff.isSome = true))
    (hfail : (∀ k, ∃ s, env.status k = .ok s ∧ s.status = "error") ∨
             (∀ k r, env.stream k = .ok r → r.success = false)) :
    ∀ (n stIdx sIdx : Nat),
      (attemptsLoop env code n stIdx sIdx).step = .nextCountry ∧
      streamCallCodes (attemptsLoop env code n stIdx sIdx).calls =
        List.replicate n code := by
  intro n
  induction n with
  | zero => intro stIdx sIdx; rw [attemptsLoop_zero]; exact ⟨rfl, rfl⟩
  | succ n ih =>
    intro stIdx sIdx
    obtain ⟨r, hr, hro⟩ := hstream stIdx
    by_cases hsucc : r.success = true
    · rcases hfail with hstatus | hall
      · obtain ⟨s, hs, hse⟩ := hstatus sIdx
        obtain ⟨hid, hh⟩ := Option.isSome_iff_exists.mp (hro hsucc)
        have hatt := runAttempt_immediateError env sIdx s hs hse
        have ha : (runAttempt env sIdx).result = .ok ("error", 0, false) := by
          rw [hatt]
        rw [attemptsLoop_statusError env code n stIdx sIdx r hid 0 false hr hsucc hh ha,
          hatt]
        constructor
        · exact (ih (stIdx + 1) (sIdx + 1)).1
        · have h2 := (ih (stIdx + 1) (sIdx + 1)).2
          simp [streamCallCodes, streamCallCodes_append, List.replicate_succ, h2]
      · exact absurd (hall stIdx r hr) (by simp [hsucc])
    · have hrf : r.success = false := by
        cases hb : r.success
        · rfl
        · exact absurd hb hsucc
      rw [attemptsLoop_rejected env code n stIdx sIdx r hr hrf]
      refine ⟨(ih (stIdx + 1) sIdx).1, ?_⟩
      have hcodes := (ih (stIdx + 1) sIdx).2
      simp only [streamCallCodes, hcodes, List.replicate_succ]

theorem countriesLoop_exhaust (env : Env)
    (hstream : ∀ k, ∃ r, env.stream k = .ok r ∧ (r.success = true → r.handoff.isSome = true))
    (hfail : (∀ k, ∃ s, env.status k = .ok s ∧ s.status = "error") ∨
             (∀ k r, env.stream k = .ok r → r.success = false)) :
    ∀ (cs : List Country) (stIdx sIdx : Nat),
      (countriesLoop env cs stIdx sIdx).result = .err .NotAvailable ∧
      streamCallCodes (countriesLoop env cs stIdx sIdx).calls = threeEach cs := by
  intro cs
  induction cs with
  | nil => intro stIdx sIdx; rw [countriesLoop_nil]; exact ⟨rfl, rfl⟩
  | cons c cs ih =>
    intro stIdx sIdx
    have hstep := attemptsLoop_exhaust env c.code hstream hfail 3 stIdx sIdx
    rw [countriesLoop_next env c cs stIdx sIdx hstep.1]
    refine ⟨(ih _ _).1, ?_⟩
    rw [streamCallCodes_append, hstep.2, (ih _ _).2]
    simp [threeEach, List.replicate_succ]

theorem threeEach_length (cs : List Country) :
    (threeEach cs).length = 3 * cs.length := by
  induction cs with
  | nil => rfl
  | cons c cs ih => simp [threeEach, ih]; omega

/-- C1: when every stream request is answered (rejected, or accepted with a
handoff id) and either the status source always reports terminal status
`"error"` or every stream request is rejected, the orchestrator issues
exactly three stream requests per country, carrying the country codes in the
server-provided order, and finally returns `Err(NotAvailable)` (the spec's
`NoAvailableCountries`).  With an empty country list (`cr.countries = []`,
so `threeEach` is empty) this means the error is returned immediately with
zero stream requests. -/
theorem claim_C1 (env : Env) (url : String) (svc : LucidaService)
    (cr : CountriesResponse)
    (hu : LucidaService.from_url url = some svc) (hc : env.countries = .ok cr)
    (hstream : ∀ k, ∃ r, env.stream k = .ok r ∧ (r.success = true → r.handoff.isSome = true))
    (hfail : (∀ k, ∃ s, env.status k = .ok s ∧ s.status = "error") ∨
             (∀ k r, env.stream k = .ok r → r.success = false)) :
    (try_download_all_countries env url).result = .err .NotAvailable ∧
    streamCallCodes (try_download_all_countries env url).calls =
      threeEach cr.countries ∧
    (streamCallCodes (try_download_all_countries env url).calls).length =
      3 * cr.countries.length := by
  have h := countriesLoop_exhaust env hstream hfail cr.countries 0 0
  rw [tdac_countriesOk env url svc cr hu hc]
  refine ⟨h.1, ?_, ?_⟩
  · simp only [streamCallCodes, h.2]
  · simp only [streamCallCodes, h.2, threeEach_length]

/-- Witness for C1: one country, every stream request rejected and every
status `"error"` — three stream requests for `"US"`, then `NotAvailable`. -/
theorem claim_C1_witness :
    (try_download_all_countries (envConst "error" "Failed" 0)
        "https://play.qobuz.com/album/1").result = .err .NotAvailable ∧
    streamCallCodes (try_download_all_countries (envConst "error" "Failed" 0)
        "https://play.qobuz.com/album/1").calls =
      threeEach [⟨"US", "United States"⟩] ∧
    (streamCallCodes (try_download_all_countries (envConst "error" "Failed" 0)
        "https://play.qobuz.com/album/1").calls).length =
      3 * ([⟨"US", "United States"⟩] : List Country).length :=
  have h := claim_C1 (envConst "error" "Failed" 0) "https://play.qobuz.com/album/1"
    .Qobuz (⟨true, [⟨"US", "United States"⟩]⟩ : CountriesResponse) (by decide) rfl
    (fun _ => ⟨_, rfl, by decide⟩) (.inl (fun _ => ⟨_, rfl, rfl⟩))
  h

end LucidaRs

namespace LucidaRs

theorem allOk_nil : allOk [] := by intro x hx; cases hx

theorem allOk_cons {c : Call} {l : List Call} (hc : callOk c = true) (hl : allOk l) :
    allOk (c :: l) := by
  intro x hx
  rcases List.mem_cons.mp hx with rfl | hx
  · exact hc
  · exact hl x hx

theorem allOk_append {l1 l2 : List Call} (h1 : allOk l1) (h2 : allOk l2) :
    allOk (l1 ++ l2) := by
  intro x hx
  rcases List.mem_append.mp hx with hx | hx
  · exact h1 x hx
  · exact h2 x hx

theorem AbortShape_cons_ok {c : Call} {l : List Call} (hc : callOk c = true)
    (h : AbortShape l) : AbortShape (c :: l) := by
  obtain ⟨pre, x, hl, hpre, hx⟩ := h
  exact ⟨c :: pre, x, by rw [hl, List.cons_append], allOk_cons hc hpre, hx⟩

theorem AbortShape_append_ok {l1 l2 : List Call} (h1 : allOk l1)
    (h : AbortShape l2) : AbortShape (l1 ++ l2) := by
  obtain ⟨pre, x, hl, hpre, hx⟩ := h
  exact ⟨l1 ++ pre, x, by rw [hl, ← List.append_assoc], allOk_append h1 hpre, hx⟩

theorem AbortShape_concat {l : List Call} {c : Call} (h : allOk l)
    (hc : callOk c = false) : AbortShape (l ++ [c]) :=
  ⟨l, c, rfl, h, hc⟩

theorem AbortShape_single {c : Call} (hc : callOk c = false) : AbortShape [c] :=
  ⟨[], c, rfl, allOk_nil, hc⟩

theorem AbortShape_not_allOk {l : List Call} (h : AbortShape l) : ¬ allOk l := by
  obtain ⟨pre, c, hl, hpre, hc⟩ := h
  intro hall
  have := hall c (by rw [hl]; exact List.mem_append.mpr (Or.inr (List.mem_singleton.mpr rfl)))
  rw [this] at hc
  cases hc

theorem pollLoop_cases (env : Env) :
    ∀ (e idx : Nat) (lm st : String),
      ((∃ v, (pollLoop env e idx lm st).result = .ok v) ∧
        allOk (pollLoop env e idx lm st).calls) ∨
      (∃ er, (pollLoop env e idx lm st).result = .error er ∧
        AbortShape (pollLoop env e idx lm st).calls) := by
  suffices h : ∀ m, ∀ (e idx : Nat) (lm st : String), 61 - e ≤ m →
      ((∃ v, (pollLoop env e idx lm st).result = .ok v) ∧
        allOk (pollLoop env e idx lm st).calls) ∨
      (∃ er, (pollLoop env e idx lm st).result = .error er ∧
        AbortShape (pollLoop env e idx lm st).calls) by
    exact fun e idx lm st => h (61 - e) e idx lm st le_rfl
  intro m
  induction m with
  | zero =>
    intro e idx lm st hm
    by_cases hterm : statusTerminal st = true
    · rw [pollLoop_terminal env e idx lm st hterm]
      exact .inl ⟨⟨_, rfl⟩, allOk_nil⟩
    · cases hst : env.status idx with
      | error er =>
        rw [pollLoop_statusErr env e idx lm st er (by simpa using hterm) hst]
        exact .inr ⟨er, rfl, AbortShape_single rfl⟩
      | ok r =>
        have ht : 60 < e + env.statusDur idx := by omega
        rw [pollLoop_timeout env e idx lm st r (by simpa using hterm) hst ht]
        exact .inl ⟨⟨_, rfl⟩, allOk_cons rfl allOk_nil⟩
  | succ m ih =>
    intro e idx lm st hm
    by_cases hterm : statusTerminal st = true
    · rw [pollLoop_terminal env e idx lm st hterm]
      exact .inl ⟨⟨_, rfl⟩, allOk_nil⟩
    · cases hst : env.status idx with
      | error er =>
        rw [pollLoop_statusErr env e idx lm st er (by simpa using hterm) hst]
        exact .inr ⟨er, rfl, AbortShape_single rfl⟩
      | ok r =>
        by_cases ht : 60 < e + env.statusDur idx
        · rw [pollLoop_timeout env e idx lm st r (by simpa using hterm) hst ht]
          exact .inl ⟨⟨_, rfl⟩, allOk_cons rfl allOk_nil⟩
        · rw [pollLoop_step env e idx lm st r (by simpa using hterm) hst ht]
          rcases ih (e + env.statusDur idx + 1) (idx + 1)
              (if r.message ≠ lm then r.message else lm) r.status (by omega) with
            ⟨⟨v, hv⟩, hall⟩ | ⟨er, her, hab⟩
          · exact .inl ⟨⟨v, hv⟩, allOk_cons rfl hall⟩
          · exact .inr ⟨er, her, AbortShape_cons_ok rfl hab⟩

theorem runAttempt_cases (env : Env) (sIdx : Nat) :
    ((∃ v, (runAttempt env sIdx).result = .ok v) ∧
      allOk (runAttempt env sIdx).calls) ∨
    (∃ er, (runAttempt env sIdx).result = .error er ∧
      AbortShape (runAttempt env sIdx).calls) := by
  cases hst : env.status sIdx with
  | error er =>
    rw [runAttempt_statusErr env sIdx er hst]
    exact .inr ⟨er, rfl, AbortShape_single rfl⟩
  | ok r =>
    rw [runAttempt_ok env sIdx r hst]
    rcases pollLoop_cases env 0 (sIdx + 1) r.message r.status with
      ⟨⟨v, hv⟩, hall⟩ | ⟨er, her, hab⟩
    · exact .inl ⟨⟨v, hv⟩, allOk_cons rfl hall⟩
    · exact .inr ⟨er, her, AbortShape_cons_ok rfl hab⟩

end LucidaRs

namespace LucidaRs

theorem getLast?_append_right {α : Type} {l2 : List α} (l1 : List α) {x : α}
    (h : l2.getLast? = some x) : (l1 ++ l2).getLast? = some x := by
  have hne : l2 ≠ [] := by intro h0; rw [h0] at h; cases h
  rw [List.getLast?_append_of_ne_nil l1 hne, h]

theorem attemptsLoop_cases (env : Env) (code : String) :
    ∀ (n stIdx sIdx : Nat),
      ((attemptsLoop env code n stIdx sIdx).step = .nextCountry ∧
        allOk (attemptsLoop env code n stIdx sIdx).calls) ∨
      (∃ e, (attemptsLoop env code n stIdx sIdx).step = .done (.err (.RequestFailed e)) ∧
        AbortShape (attemptsLoop env code n stIdx sIdx).calls) ∨
      ((attemptsLoop env code n stIdx sIdx).step = .done .panicked ∧
        allOk (attemptsLoop env code n stIdx sIdx).calls ∧
        ∃ k r, env.stream k = .ok r ∧ r.success = true ∧ r.handoff = none) ∨
      (∃ d, (attemptsLoop env code n stIdx sIdx).step = .done (.ok d) ∧
        env.download = .ok d ∧ allOk (attemptsLoop env code n stIdx sIdx).calls ∧
        (attemptsLoop env code n stIdx sIdx).events.getLast? = some downloadingMsg) := by
  intro n
  induction n with
  | zero =>
    intro stIdx sIdx
    rw [attemptsLoop_zero]
    exact .inl ⟨rfl, allOk_nil⟩
  | succ n ih =>
    intro stIdx sIdx
    cases hstream : env.stream stIdx with
    | error e =>
      rw [attemptsLoop_streamErr env code n stIdx sIdx e hstream]
      exact .inr (.inl ⟨e, rfl, AbortShape_single rfl⟩)
    | ok r =>
      cases hsucc : r.success with
      | false =>
        rw [attemptsLoop_rejected env code n stIdx sIdx r hstream hsucc]
        rcases ih (stIdx + 1) sIdx with ⟨h1, h2⟩ | ⟨e, h1, h2⟩ | ⟨h1, h2, h3⟩ |
            ⟨d, h1, h2, h3, h4⟩
        · exact .inl ⟨h1, allOk_cons rfl h2⟩
        · exact .inr (.inl ⟨e, h1, AbortShape_cons_ok rfl h2⟩)
        · exact .inr (.inr (.inl ⟨h1, allOk_cons rfl h2, h3⟩))
        · exact .inr (.inr (.inr ⟨d, h1, h2, allOk_cons rfl h3, h4⟩))
      | true =>
        cases hh : r.handoff with
        | none =>
          rw [attemptsLoop_noHandoff env code n stIdx sIdx r hstream hsucc hh]
          exact .inr (.inr (.inl ⟨rfl, allOk_cons rfl allOk_nil,
            stIdx, r, hstream, hsucc, hh⟩))
        | some hid =>
          rcases runAttempt_cases env sIdx with ⟨⟨v, hv⟩, hall⟩ | ⟨er, her, hab⟩
          · obtain ⟨st, el, tf⟩ := v
            by_cases hst : st = "error"
            · subst hst
              rw [attemptsLoop_statusError env code n stIdx sIdx r hid el tf
                hstream hsucc hh hv]
              rcases ih (stIdx + 1) (runAttempt env sIdx).nextStatus with
                ⟨h1, h2⟩ | ⟨e, h1, h2⟩ | ⟨h1, h2, h3⟩ | ⟨d, h1, h2, h3, h4⟩
              · exact .inl ⟨h1, allOk_cons rfl (allOk_append hall h2)⟩
              · exact .inr (.inl ⟨e, h1,
                  AbortShape_cons_ok rfl (AbortShape_append_ok hall h2)⟩)
              · exact .inr (.inr (.inl ⟨h1,
                  allOk_cons rfl (allOk_append hall h2), h3⟩))
              · exact .inr (.inr (.inr ⟨d, h1, h2,
                  allOk_cons rfl (allOk_append hall h3),
                  getLast?_append_right _ h4⟩))
            · cases hd : env.download with
              | error e =>
                rw [attemptsLoop_downloadErr env code n stIdx sIdx r hid st el tf e
                  hstream hsucc hh hv hst hd]
                refine .inr (.inl ⟨e, rfl, ?_⟩)
                have : (Call.streamCall code true :: (runAttempt env sIdx).calls) ++
                    [Call.downloadCall false] =
                    Call.streamCall code true ::
                      ((runAttempt env sIdx).calls ++ [Call.downloadCall false]) := by
                  rw [List.cons_append]
                rw [← this]
                exact AbortShape_concat (allOk_cons rfl hall) rfl
              | ok d =>
                rw [attemptsLoop_download env code n stIdx sIdx r hid st el tf d
                  hstream hsucc hh hv hst hd]
                refine .inr (.inr (.inr ⟨d, rfl, rfl,
                  allOk_cons rfl (allOk_append hall (allOk_cons rfl allOk_nil)),
                  getLast?_append_right _ rfl⟩))
          · rw [attemptsLoop_attemptErr env code n stIdx sIdx r hid er
              hstream hsucc hh her]
            exact .inr (.inl ⟨er, rfl, AbortShape_cons_ok rfl hab⟩)

theorem countriesLoop_cases (env : Env) :
    ∀ (cs : List Country) (stIdx sIdx : Nat),
      ((countriesLoop env cs stIdx sIdx).result = .err .NotAvailable ∧
        allOk (countriesLoop env cs stIdx sIdx).calls) ∨
      (∃ e, (countriesLoop env cs stIdx sIdx).result = .err (.RequestFailed e) ∧
        AbortShape (countriesLoop env cs stIdx sIdx).calls) ∨
      ((countriesLoop env cs stIdx sIdx).result = .panicked ∧
        allOk (countriesLoop env cs stIdx sIdx).calls ∧
        ∃ k r, env.stream k = .ok r ∧ r.success = true ∧ r.handoff = none) ∨
      (∃ d, (countriesLoop env cs stIdx sIdx).result = .ok d ∧
        env.download = .ok d ∧ allOk (countriesLoop env cs stIdx sIdx).calls ∧
        (countriesLoop env cs stIdx sIdx).events.getLast? = some downloadingMsg) := by
  intro cs
  induction cs with
  | nil =>
    intro stIdx sIdx
    rw [countriesLoop_nil]
    exact .inl ⟨rfl, allOk_nil⟩
  | cons c cs ih =>
    intro stIdx sIdx
    rcases attemptsLoop_cases env c.code 3 stIdx sIdx with
      ⟨h1, h2⟩ | ⟨e, h1, h2⟩ | ⟨h1, h2, h3⟩ | ⟨d, h1, h2, h3, h4⟩
    · rw [countriesLoop_next env c cs stIdx sIdx h1]
      rcases ih (attemptsLoop env c.code 3 stIdx sIdx).nextStream
          (attemptsLoop env c.code 3 stIdx sIdx).nextStatus with
        ⟨g1, g2⟩ | ⟨e, g1, g2⟩ | ⟨g1, g2, g3⟩ | ⟨d, g1, g2, g3, g4⟩
      · exact .inl ⟨g1, allOk_append h2 g2⟩
      · exact .inr (.inl ⟨e, g1, AbortShape_append_ok h2 g2⟩)
      · exact .inr (.inr (.inl ⟨g1, allOk_append h2 g2, g3⟩))
      · exact .inr (.inr (.inr ⟨d, g1, g2, allOk_append h2 g3,
          getLast?_append_right _ g4⟩))
    · rw [countriesLoop_done env c cs stIdx sIdx _ h1]
      exact .inr (.inl ⟨e, rfl, h2⟩)
    · rw [countriesLoop_done env c cs stIdx sIdx _ h1]
      exact .inr (.inr (.inl ⟨rfl, h2, h3⟩))
    · rw [countriesLoop_done env c cs stIdx sIdx _ h1]
      exact .inr (.inr (.inr ⟨d, rfl, h2, h3, h4⟩))

theorem run_cases (env : Env) (url : String) :
    (LucidaService.from_url url = none ∧
      try_download_all_countries env url = ⟨.err .UnknownService, [], [], 0, 0⟩) ∨
    ((∃ svc, LucidaService.from_url url = some svc) ∧
      (((try_download_all_countries env url).result = .err .NotAvailable ∧
          allOk (try_download_all_countries env url).calls) ∨
       (∃ e, (try_download_all_countries env url).result = .err (.RequestFailed e) ∧
          AbortShape (try_download_all_countries env url).calls) ∨
       ((try_download_all_countries env url).result = .panicked ∧
          allOk (try_download_all_countries env url).calls ∧
          ∃ k r, env.stream k = .ok r ∧ r.success = true ∧ r.handoff = none) ∨
       (∃ d, (try_download_all_countries env url).result = .ok d ∧
          env.download = .ok d ∧ allOk (try_download_all_countries env url).calls ∧
          (try_download_all_countries env url).events.getLast? =
            some downloadingMsg))) := by
  cases hu : LucidaService.from_url url with
  | none => exact .inl ⟨rfl, tdac_unknownService env url hu⟩
  | some svc =>
    refine .inr ⟨⟨svc, rfl⟩, ?_⟩
    cases hc : env.countries with
    | error e =>
      rw [tdac_countriesErr env url svc e hu hc]
      exact .inr (.inl ⟨e, rfl, AbortShape_single rfl⟩)
    | ok cr =>
      rw [tdac_countriesOk env url svc cr hu hc]
      rcases countriesLoop_cases env cr.countries 0 0 with
        ⟨g1, g2⟩ | ⟨e, g1, g2⟩ | ⟨g1, g2, g3⟩ | ⟨d, g1, g2, g3, g4⟩
      · exact .inl ⟨g1, allOk_cons rfl g2⟩
      · exact .inr (.inl ⟨e, g1, AbortShape_cons_ok rfl g2⟩)
      · exact .inr (.inr (.inl ⟨g1, allOk_cons rfl g2, g3⟩))
      · exact .inr (.inr (.inr ⟨d, g1, g2, allOk_cons rfl g3, g4⟩))

end LucidaRs

namespace LucidaRs

theorem AbortShape_nil : ¬ AbortShape ([] : List Call) := by
  rintro ⟨pre, c, heq, -, -⟩
  cases pre <;> simp at heq

theorem from_url_eq_spec (url : String) :
    LucidaService.from_url url = resolveUrlSpec url := by
  simp only [LucidaService.from_url, resolveUrlSpec, domainTable, List.find?]
  cases strContains url "qobuz.com" <;>
    cases strContains url "tidal.com" <;>
      cases strContains url "soundcloud.com" <;>
        cases strContains url "deezer.com" <;>
          cases strContains url "music.amazon.com" <;>
            cases strContains url "music.yandex.ru" <;> rfl

/-- C4: the whole call returns the transport error `RequestFailed` exactly
when its HTTP-call trace ends in its unique transport-failed call: every call
issued before the failure succeeded and nothing at all — no stream request,
no status poll, no download — is issued after it, so a transport/parse
failure anywhere (country enumeration, stream request, status poll or
download) aborts the run immediately and is never converted into advancing
to another attempt or country. -/
theorem claim_C4 (env : Env) (url : String) :
    isTransportErr (try_download_all_countries env url).result = true ↔
      AbortShape (try_download_all_countries env url).calls := by
  constructor
  · intro h
    rcases run_cases env url with ⟨h1, h2⟩ | ⟨⟨svc, hsvc⟩, hcase⟩
    · rw [h2] at h; simp [isTransportErr] at h
    · rcases hcase with ⟨g1, g2⟩ | ⟨e, g1, g2⟩ | ⟨g1, g2, g3⟩ | ⟨d, g1, g2, g3, g4⟩
      · rw [g1] at h; simp [isTransportErr] at h
      · exact g2
      · rw [g1] at h; simp [isTransportErr] at h
      · rw [g1] at h; simp [isTransportErr] at h
  · intro h
    rcases run_cases env url with ⟨h1, h2⟩ | ⟨⟨svc, hsvc⟩, hcase⟩
    · rw [h2] at h; exact absurd h AbortShape_nil
    · rcases hcase with ⟨g1, g2⟩ | ⟨e, g1, g2⟩ | ⟨g1, g2, g3⟩ | ⟨d, g1, g2, g3, g4⟩
      · exact absurd g2 (AbortShape_not_allOk h)
      · rw [g1]; rfl
      · exact absurd g2 (AbortShape_not_allOk h)
      · exact absurd g3 (AbortShape_not_allOk h)

/-- C6 counterexample: the claim says acquire falls back to exact short-name
matching when no domain matches, failing with `UnknownService` only when
neither matches.  On the input `"qobuz"` the exact short name matches
(`from_str` resolves it) yet the orchestrator still returns `UnknownService`,
because it consults only `from_url`. -/
theorem claim_C6_counterexample :
    LucidaService.from_str "qobuz" = some LucidaService.Qobuz ∧
    LucidaService.from_url "qobuz" = none ∧
    (try_download_all_countries (envConst "error" "Failed" 0) "qobuz").result =
      .err .UnknownService := by
  refine ⟨rfl, by decide, ?_⟩
  rw [tdac_unknownService _ _ (by decide)]

/-- C6 (amended): URL resolution attempts substring match against each
service's known domain in the fixed order qobuz.com, tidal.com,
soundcloud.com, deezer.com, music.amazon.com, music.yandex.ru, the first
matching domain winning (`from_url` equals the first-match lookup over
`domainTable`), and the orchestrator fails with `UnknownService` if and only
if no domain matches; exact short-name matching exists as the separate
resolver `from_str` and is not consulted by the orchestrator. -/
theorem claim_C6 (env : Env) (url : String) :
    ((try_download_all_countries env url).result = .err .UnknownService ↔
      LucidaService.from_url url = none) ∧
    LucidaService.from_url url = resolveUrlSpec url := by
  refine ⟨⟨?_, ?_⟩, from_url_eq_spec url⟩
  · intro h
    rcases run_cases env url with ⟨h1, h2⟩ | ⟨⟨svc, hsvc⟩, hcase⟩
    · exact h1
    · exfalso
      rcases hcase with ⟨g1, _⟩ | ⟨e, g1, _⟩ | ⟨g1, _, _⟩ | ⟨d, g1, _, _, _⟩ <;>
        rw [g1] at h <;> simp at h
  · intro h
    rw [tdac_unknownService env url h]

/-- C7: first part — when every successful stream response carries a handoff
id, the orchestrator never panics (the `handoff.unwrap()` of lib.rs line 252
is safe exactly under this precondition).  Second part — as soon as the first
stream request of the first country reports success with no handoff id, the
run panics instead of returning a typed error. -/
theorem claim_C7 :
    (∀ (env : Env) (url : String),
      (∀ k r, env.stream k = .ok r → r.success = true → r.handoff ≠ none) →
      (try_download_all_countries env url).result ≠ .panicked) ∧
    (∀ (env : Env) (url : String) (svc : LucidaService) (b : Bool) (c : Country)
        (cs : List Country) (r : StreamResponse),
      LucidaService.from_url url = some svc →
      env.countries = .ok ⟨b, c :: cs⟩ →
      env.stream 0 = .ok r → r.success = true → r.handoff = none →
      (try_download_all_countries env url).result = .panicked) := by
  constructor
  · intro env url hpre h
    rcases run_cases env url with ⟨h1, h2⟩ | ⟨⟨svc, hsvc⟩, hcase⟩
    · rw [h2] at h; simp at h
    · rcases hcase with ⟨g1, _⟩ | ⟨e, g1, _⟩ | ⟨g1, g2, k, r, hk, hsucc, hh⟩ |
        ⟨d, g1, _, _, _⟩
      · rw [g1] at h; simp at h
      · rw [g1] at h; simp at h
      · exact hpre k r hk hsucc hh
      · rw [g1] at h; simp at h
  · intro env url svc b c cs r hu hc hs hsucc hh
    have hatt : attemptsLoop env c.code 3 0 0 =
        ⟨.done .panicked, [], [.streamCall c.code true], 1, 0⟩ :=
      attemptsLoop_noHandoff env c.code 2 0 0 r hs hsucc hh
    have hcl : countriesLoop env (c :: cs) 0 0 =
        ⟨.panicked, [], [.streamCall c.code true], 1, 0⟩ := by
      rw [countriesLoop_done env c cs 0 0 .panicked (by rw [hatt]), hatt]
    rw [tdac_countriesOk env url svc ⟨b, c :: cs⟩ hu hc,
      show (⟨b, c :: cs⟩ : CountriesResponse).countries = c :: cs from rfl, hcl]

/-- Witness for C7: a rejected-streams oracle never panics; the no-handoff
oracle panics. -/
theorem claim_C7_witness :
    (try_download_all_countries (envConst "error" "Failed" 0)
        "https://soundcloud.com/a/b").result ≠ .panicked ∧
    (try_download_all_countries envNoHandoff "https://deezer.com/track/1").result =
      .panicked :=
  ⟨claim_C7.1 (envConst "error" "Failed" 0) "https://soundcloud.com/a/b"
      (fun _ r hr hs => by injection hr with h2; subst h2; simp at hs),
   claim_C7.2 envNoHandoff "https://deezer.com/track/1" .Deezer true
      ⟨"US", "United States"⟩ [] ⟨true, none, none, none⟩ (by decide) rfl rfl rfl rfl⟩

/-- C9: parsing the download response headers — the content-disposition value
`attachment; filename="My Song.flac"` yields exactly the filename
`My Song.flac`; a missing content-disposition header yields no filename while
the download still succeeds; a content-disposition header that is present but
carries no `filename` parameter (`attachment` alone, or with only other
parameters) likewise yields no filename without being an error; and a missing
content-type header is not an error either (it is passed through verbatim). -/
theorem claim_C9 :
    fetch_download (some "audio/flac")
        (some "attachment; filename=\"My Song.flac\"") =
      ⟨some "My Song.flac", some "audio/flac"⟩ ∧
    (∀ ct : Option String, fetch_download ct none = ⟨none, ct⟩) ∧
    fetch_download none none = ⟨none, none⟩ ∧
    fetch_download (some "audio/flac") (some "attachment") =
      ⟨none, some "audio/flac"⟩ ∧
    fetch_download (some "audio/flac")
        (some "attachment; creation-date=\"Tue, 01 Jul 2025 10:00:00 GMT\"") =
      ⟨none, some "audio/flac"⟩ ∧
    fetch_download none (some "attachment") = ⟨none, none⟩ := by
  refine ⟨?_, fun ct => rfl, rfl, by decide, ?_, by decide⟩ <;> decide

/-- C10: converting any `LucidaService` to its canonical short name with
`as_str` and resolving that name back with the exact-match `from_str`
returns the original service. -/
theorem claim_C10 (s : LucidaService) :
    LucidaService.from_str (LucidaService.as_str s) = some s := by
  cases s <;> rfl

end LucidaRs

namespace LucidaRs

theorem runAttempt_immediateCompleted (env : Env) (sIdx : Nat) (s : StatusResponse)
    (hs : env.status sIdx = .ok s) (hse : s.status = "completed") :
    runAttempt env sIdx =
      ⟨.ok ("completed", 0, false), [s.message], [.statusCall true], sIdx + 1⟩ := by
  rw [runAttempt_ok env sIdx s hs, hse,
    pollLoop_terminal env 0 (sIdx + 1) s.message "completed" (by decide)]

theorem attemptsLoop_allRejected (env : Env) (code : String) :
    ∀ (n stIdx sIdx : Nat),
      (∀ i, i < n → ∃ r, env.stream (stIdx + i) = .ok r ∧ r.success = false) →
      attemptsLoop env code n stIdx sIdx =
        ⟨.nextCountry, [], List.replicate n (.streamCall code true), stIdx + n, sIdx⟩ := by
  intro n
  induction n with
  | zero =>
    intro stIdx sIdx h
    rw [attemptsLoop_zero]
    simp
  | succ n ih =>
    intro stIdx sIdx h
    obtain ⟨r, hr, hrs⟩ := h 0 (by omega)
    rw [Nat.add_zero] at hr
    rw [attemptsLoop_rejected env code n stIdx sIdx r hr hrs,
      ih (stIdx + 1) sIdx (fun i hi => by
        obtain ⟨r2, hr2, hrs2⟩ := h (i + 1) (by omega)
        refine ⟨r2, ?_, hrs2⟩
        rw [show stIdx + 1 + i = stIdx + (i + 1) from by omega]
        exact hr2)]
    simp only [StepOut.mk.injEq, List.replicate_succ, true_and, and_true]
    omega

/-- C5: first part — whenever the orchestrator returns a successful result it
is exactly the download fetch's result, and the fixed downloading message is
the last emitted event (download is the only success exit).  Second part —
when the first country's three attempts are all rejected and the second
country's first attempt is accepted and completes at once, the run returns
the download result after exactly four stream requests (three for the first
country, one for the second): no stream request is issued for any later
country in `rest` or any later attempt. -/
theorem claim_C5 :
    (∀ (env : Env) (url : String) (d : DownloadResult),
      (try_download_all_countries env url).result = .ok d →
        env.download = .ok d ∧
        (try_download_all_countries env url).events.getLast? = some downloadingMsg) ∧
    (∀ (env : Env) (url : String) (svc : LucidaService) (b : Bool)
        (c1 c2 : Country) (rest : List Country) (r0 r1 r2 r3 : StreamResponse)
        (hid : String) (s0 : StatusResponse) (d : DownloadResult),
      LucidaService.from_url url = some svc →
      env.countries = .ok ⟨b, c1 :: c2 :: rest⟩ →
      env.stream 0 = .ok r0 → r0.success = false →
      env.stream 1 = .ok r1 → r1.success = false →
      env.stream 2 = .ok r2 → r2.success = false →
      env.stream 3 = .ok r3 → r3.success = true → r3.handoff = some hid →
      env.status 0 = .ok s0 → s0.status = "completed" →
      env.download = .ok d →
      try_download_all_countries env url =
        ⟨.ok d, [s0.message, downloadingMsg],
          [.countriesCall true, .streamCall c1.code true, .streamCall c1.code true,
            .streamCall c1.code true, .streamCall c2.code true, .statusCall true,
            .downloadCall true], 4, 1⟩) := by
  constructor
  · intro env url d h
    rcases run_cases env url with ⟨h1, h2⟩ | ⟨⟨svc, hsvc⟩, hcase⟩
    · rw [h2] at h; simp at h
    · rcases hcase with ⟨g1, _⟩ | ⟨e, g1, _⟩ | ⟨g1, _, _⟩ | ⟨d2, g1, g2, g3, g4⟩
      · rw [g1] at h; simp at h
      · rw [g1] at h; simp at h
      · rw [g1] at h; simp at h
      · rw [g1] at h
        injection h with h
        subst h
        exact ⟨g2, g4⟩
  · intro env url svc b c1 c2 rest r0 r1 r2 r3 hid s0 d hu hc h0 hr0 h1 hr1 h2 hr2
      h3 hr3 hh3 hst0 hcomp hd
    have hatt0 : runAttempt env 0 =
        ⟨.ok ("completed", 0, false), [s0.message], [.statusCall true], 1⟩ :=
      runAttempt_immediateCompleted env 0 s0 hst0 hcomp
    have hA1 : attemptsLoop env c1.code 3 0 0 =
        ⟨.nextCountry, [], [.streamCall c1.code true, .streamCall c1.code true,
          .streamCall c1.code true], 3, 0⟩ := by
      have t := attemptsLoop_allRejected env c1.code 3 0 0 (fun i hi =>
        match i, hi with
        | 0, _ => ⟨r0, h0, hr0⟩
        | 1, _ => ⟨r1, h1, hr1⟩
        | 2, _ => ⟨r2, h2, hr2⟩)
      exact t
    have hA2 : attemptsLoop env c2.code 3 3 0 =
        ⟨.done (.ok d), [s0.message, downloadingMsg],
          [.streamCall c2.code true, .statusCall true, .downloadCall true], 4, 1⟩ := by
      have t := attemptsLoop_download env c2.code 2 3 0 r3 hid "completed" 0 false d
        h3 hr3 hh3 (by rw [hatt0]) (by decide) hd
      rw [hatt0] at t
      exact t
    have hB2 : countriesLoop env (c2 :: rest) 3 0 =
        ⟨.ok d, [s0.message, downloadingMsg],
          [.streamCall c2.code true, .statusCall true, .downloadCall true], 4, 1⟩ := by
      have t := countriesLoop_done env c2 rest 3 0 (.ok d) (by rw [hA2])
      rw [hA2] at t
      exact t
    rw [tdac_countriesOk env url svc ⟨b, c1 :: c2 :: rest⟩ hu hc]
    simp only [show (⟨b, c1 :: c2 :: rest⟩ : CountriesResponse).countries =
      c1 :: c2 :: rest from rfl]
    rw [countriesLoop_next env c1 (c2 :: rest) 0 0 (by rw [hA1])]
    simp only [hA1]
    rw [hB2]
    rfl

/-- Witness for C5 at a concrete two-country oracle whose second country's
first attempt succeeds. -/
theorem claim_C5_witness :
    (envSecondCountry.download = .ok ⟨some "track.flac", some "audio/flac"⟩ ∧
      (try_download_all_countries envSecondCountry
        "https://tidal.com/track/5").events.getLast? = some downloadingMsg) ∧
    try_download_all_countries envSecondCountry "https://tidal.com/track/5" =
      ⟨.ok ⟨some "track.flac", some "audio/flac"⟩, ["Done", downloadingMsg],
        [.countriesCall true, .streamCall "US" true, .streamCall "US" true,
          .streamCall "US" true, .streamCall "GB" true, .statusCall true,
          .downloadCall true], 4, 1⟩ := by
  have h2 := claim_C5.2 envSecondCountry "https://tidal.com/track/5" .Tidal true
    ⟨"US", "United States"⟩ ⟨"GB", "United Kingdom"⟩ []
    ⟨false, some "not available", none, none⟩ ⟨false, some "not available", none, none⟩
    ⟨false, some "not available", none, none⟩ ⟨true, none, some "job1", none⟩
    "job1" ⟨true, "completed", "Done"⟩ ⟨some "track.flac", some "audio/flac"⟩
    (by decide) rfl rfl rfl rfl rfl rfl rfl rfl rfl rfl rfl rfl rfl
  exact ⟨claim_C5.1 envSecondCountry "https://tidal.com/track/5"
    ⟨some "track.flac", some "audio/flac"⟩ (by rw [h2]), h2⟩

/-- C8: when an attempt's fresh status snapshot reports the terminal status
`"completed"` but the poll that delivered it pushed the elapsed time past the
60-unit ceiling, the loop overrides the status to `"error"` with the timeout
flag set (first conjunct: the attempt's result is a timeout-flavored
`"error"`, never a success), emits the timeout message right after the
initial snapshot's message, and the attempt loop proceeds exactly as with a
failed attempt: the remaining `n` attempts continue and no download call is
made for this attempt. -/
theorem claim_C8 (env : Env) (code : String) (n stIdx sIdx : Nat)
    (r : StreamResponse) (hid : String) (s0 s1 : StatusResponse)
    (hstr : env.stream stIdx = .ok r) (hr : r.success = true)
    (hh : r.handoff = some hid)
    (hs0 : env.status sIdx = .ok s0) (hterm0 : statusTerminal s0.status = false)
    (hs1 : env.status (sIdx + 1) = .ok s1) (hst1 : s1.status = "completed")
    (hm1 : s1.message = s0.message)
    (hdur : 60 < env.statusDur (sIdx + 1)) :
    (∃ el, (runAttempt env sIdx).result = .ok ("error", el, true) ∧ 60 < el) ∧
    attemptsLoop env code (n + 1) stIdx sIdx =
      ⟨(attemptsLoop env code n (stIdx + 1) (sIdx + 2)).step,
        [s0.message, timeoutMsg] ++ (attemptsLoop env code n (stIdx + 1) (sIdx + 2)).events,
        .streamCall code true :: .statusCall true :: .statusCall true ::
          (attemptsLoop env code n (stIdx + 1) (sIdx + 2)).calls,
        (attemptsLoop env code n (stIdx + 1) (sIdx + 2)).nextStream,
        (attemptsLoop env code n (stIdx + 1) (sIdx + 2)).nextStatus⟩ := by
  have hatt : runAttempt env sIdx =
      ⟨.ok ("error", 0 + env.statusDur (sIdx + 1), true), [s0.message, timeoutMsg],
        [.statusCall true, .statusCall true], sIdx + 2⟩ := by
    rw [runAttempt_ok env sIdx s0 hs0,
      pollLoop_timeout env 0 (sIdx + 1) s0.message s0.status s1 hterm0 hs1
        (by omega), hm1]
    have hif : (if s0.message ≠ s0.message then [s0.message] else ([] : List String)) =
        [] := by simp
    rw [hif]
    rfl
  refine ⟨⟨0 + env.statusDur (sIdx + 1), by rw [hatt], by omega⟩, ?_⟩
  rw [attemptsLoop_statusError env code n stIdx sIdx r hid
    (0 + env.statusDur (sIdx + 1)) true hstr hr hh (by rw [hatt]), hatt]
  rfl

/-- Witness for C8: a first poll of 61 time units delivering `"completed"` is
overridden to a timeout `"error"` and the attempt loop moves on. -/
theorem claim_C8_witness :
    (∃ el, (runAttempt envLateComplete 0).result = .ok ("error", el, true) ∧ 60 < el) ∧
    attemptsLoop envLateComplete "US" 1 0 0 =
      ⟨(attemptsLoop envLateComplete "US" 0 1 2).step,
        ["Working", timeoutMsg] ++ (attemptsLoop envLateComplete "US" 0 1 2).events,
        .streamCall "US" true :: .statusCall true :: .statusCall true ::
          (attemptsLoop envLateComplete "US" 0 1 2).calls,
        (attemptsLoop envLateComplete "US" 0 1 2).nextStream,
        (attemptsLoop envLateComplete "US" 0 1 2).nextStatus⟩ :=
  claim_C8 envLateComplete "US" 0 0 0 ⟨true, none, some "job1", none⟩ "job1"
    ⟨true, "processing", "Working"⟩ ⟨true, "completed", "Working"⟩
    rfl rfl rfl rfl (by decide) rfl rfl rfl (by decide)

/-- Witness for C4 at a concrete oracle: neither side of the equivalence
holds for a run that exhausts its countries without transport failure. -/
theorem claim_C4_witness :
    isTransportErr (try_download_all_countries (envConst "error" "Failed" 0)
        "https://music.yandex.ru/track/9").result = true ↔
      AbortShape (try_download_all_countries (envConst "error" "Failed" 0)
        "https://music.yandex.ru/track/9").calls :=
  claim_C4 (envConst "error" "Failed" 0) "https://music.yandex.ru/track/9"

/-- Witness for C6 at a concrete oracle and URL. -/
theorem claim_C6_witness :
    ((try_download_all_countries (envConst "error" "Failed" 0)
        "https://music.amazon.com/albums/3").result = .err .UnknownService ↔
      LucidaService.from_url "https://music.amazon.com/albums/3" = none) ∧
    LucidaService.from_url "https://music.amazon.com/albums/3" =
      resolveUrlSpec "https://music.amazon.com/albums/3" :=
  claim_C6 (envConst "error" "Failed" 0) "https://music.amazon.com/albums/3"

/-- Witness for C10 at a concrete service. -/
theorem claim_C10_witness :
    LucidaService.from_str (LucidaService.as_str .AmazonMusic) =
      some LucidaService.AmazonMusic :=
  claim_C10 .AmazonMusic

end LucidaRs
